import Mathlib

/-!
Verification of the firebase-tools trigger-discovery and config-export core.

Embedded source files:
- src/deploy/functions/runtimes/node/parseTriggers.ts (addResourcesToBackend)
- src/commands/functions-config-export.ts (convertKey, configToEnv, escape, toDotenvFormat)

Strings are modelled with Lean String, with character-level helpers defined by
structural recursion on the underlying character list so that every definition
evaluates inside the kernel.  JS objects of type Record<string, string> are
modelled as association lists in insertion order; assigning a key mirrors the
JS spread/index-assignment semantics (update in place when the key is present,
append otherwise).
-/

deriving instance DecidableEq for Except

/-- Rebind one association-list pair to the value v when its key is k. -/
def setPair (k v : String) (q : String × String) : String × String :=
  if q.1 = k then (k, v) else q

/-- Assignment m[k] = v on a JS-object-as-association-list: if the key is
present every binding of it is updated in place, otherwise the pair is
appended (JS insertion-order semantics). -/
def recordSet (m : List (String × String)) (k v : String) : List (String × String) :=
  if m.any (fun q => decide (q.1 = k)) then m.map (setPair k v)
  else m ++ [(k, v)]

/-- The double-quote character. -/
def quoteChar : Char := Char.ofNat 34

/-- The single-quote character. -/
def squoteChar : Char := Char.ofNat 39

/-- The backslash character. -/
def backslashChar : Char := Char.ofNat 92

/-- The vertical-tab character (JS "\v"). -/
def vtabChar : Char := Char.ofNat 11

/-- One-character string holding a double quote. -/
def dquoteStr : String := String.mk [quoteChar]

/-! ## Data model of parseTriggers.ts -/

/-- The two platform generations of TriggerAnnotation.platform
("gcfv1" | "gcfv2"). -/
inductive Platform where
  | gcfv1
  | gcfv2
  deriving DecidableEq

/-- ScheduleRetryConfig from parseTriggers.ts. -/
structure ScheduleRetryConfig where
  retryCount : Option Nat
  maxRetryDuration : Option String
  minBackoffDuration : Option String
  maxBackoffDuration : Option String
  maxDoublings : Option Nat
  deriving DecidableEq

/-- ScheduleAnnotation from parseTriggers.ts. -/
structure ScheduleAnn where
  schedule : String
  timeZone : Option String
  retryConfig : Option ScheduleRetryConfig
  deriving DecidableEq

/-- The httpsTrigger field of TriggerAnnotation; allowInsecure is `some b`
when the field is present (the TS code tests presence with the `in`
operator and coerces the value with `!!`). -/
structure HttpsTriggerAnn where
  allowInsecure : Option Bool
  deriving DecidableEq

/-- The eventTrigger field of TriggerAnnotation. -/
structure EventTriggerAnn where
  eventType : String
  resource : String
  service : String
  deriving DecidableEq

/-- TriggerAnnotation from parseTriggers.ts.  Optional fields are Options;
failurePolicy is an opaque object whose only use is truthiness, modelled by
presence of a Unit. -/
structure TriggerAnn where
  name : String
  platform : Option Platform
  labels : Option (List (String × String))
  entryPoint : String
  vpcConnector : Option String
  vpcConnectorEgressSettings : Option String
  ingressSettings : Option String
  availableMemoryMb : Option Nat
  timeout : Option String
  maxInstances : Option Nat
  minInstances : Option Nat
  serviceAccountEmail : Option String
  httpsTrigger : Option HttpsTriggerAnn
  eventTrigger : Option EventTriggerAnn
  failurePolicy : Option Unit
  schedule : Option ScheduleAnn
  timeZone : Option String
  regions : Option (List String)
  concurrency : Option Nat
  invoker : Option (List String)
  deriving DecidableEq

/-- backend.TargetIds: the identity triple of a function. -/
structure TargetIds where
  id : String
  region : String
  project : String
  deriving DecidableEq

/-- The eventFilters record of a backend EventTrigger; parseTriggers only ever
sets and rewrites its resource field. -/
structure EventFilters where
  resource : String
  deriving DecidableEq

/-- The trigger union backend.HttpsTrigger | backend.EventTrigger of a
FunctionSpec. -/
inductive FunctionTrigger where
  | https (allowInsecure : Bool)
  | event (eventType : String) (eventFilters : EventFilters) (retry : Bool)
  deriving DecidableEq

/-- backend.FunctionSpec, restricted to the fields parseTriggers.ts writes. -/
structure FunctionSpec where
  platform : Platform
  id : String
  region : String
  project : String
  entryPoint : String
  runtime : String
  trigger : FunctionTrigger
  vpcConnector : Option String
  concurrency : Option Nat
  serviceAccountEmail : Option String
  labels : Option (List (String × String))
  vpcConnectorEgressSettings : Option String
  ingressSettings : Option String
  timeout : Option String
  maxInstances : Option Nat
  minInstances : Option Nat
  availableMemoryMb : Option Nat
  invoker : Option (List String)
  deriving DecidableEq

/-- backend.ScheduleSpec as constructed by parseTriggers.ts. -/
structure ScheduleSpec where
  id : String
  project : String
  schedule : String
  transport : String
  targetService : TargetIds
  timeZone : Option String
  retryConfig : Option ScheduleRetryConfig
  deriving DecidableEq

/-- backend.PubSubSpec as constructed by parseTriggers.ts. -/
structure PubSubSpec where
  id : String
  project : String
  labels : Option (List (String × String))
  targetService : TargetIds
  deriving DecidableEq

/-- backend.Backend, restricted to the fields parseTriggers.ts touches. -/
structure Backend where
  requiredAPIs : List (String × String)
  cloudFunctions : List FunctionSpec
  schedules : List ScheduleSpec
  topics : List PubSubSpec
  environmentVariables : List (String × String)
  deriving DecidableEq

/-- The FirebaseError thrown by addResourcesToBackend, reduced to its
message. -/
structure FirebaseError where
  message : String
  deriving DecidableEq

/-- The structural-consistency error thrown when an annotation has zero or two
trigger kinds (parseTriggers.ts lines 150-154). -/
def structuralError : FirebaseError :=
  ⟨"Unexpected annotation generated by the Firebase Functions SDK. This should never happen."⟩

/-- Modelled from the spec: api.functionsDefaultRegion, the single well-known
default region used when an annotation lists no regions (api.ts is not part
of the embedded sources). -/
def functionsDefaultRegion : String := "us-central1"

/-- Modelled from the spec: backend.scheduleIdForFunction, the deterministic
schedule id derived from the function identity triple - a fixed-format string
combining id and region (backend.ts is not part of the embedded sources). -/
def scheduleIdForFunction (t : TargetIds) : String :=
  "firebase-schedule-" ++ t.id ++ "-" ++ t.region

/-- Modelled from the spec: backend.SCHEDULED_FUNCTION_LABEL, the fixed label
marking a pub/sub topic as a scheduled-function artifact (backend.ts is not
part of the embedded sources). -/
def SCHEDULED_FUNCTION_LABEL : List (String × String) :=
  [("deployment", "firebase-schedule")]

/-- Does the string contain the character?  Structural embedding of the JS
String.prototype.includes test used for the vpcConnector path separator. -/
def strContainsChar (s : String) (c : Char) : Bool :=
  s.data.any (fun x => x == c)

/-- The region list the loop of addResourcesToBackend iterates over:
annotation.regions || [api.functionsDefaultRegion].  A present JS array is
truthy even when it is empty, so only an absent regions field falls back to
the default region. -/
def effectiveRegions (ann : TriggerAnn) : List String :=
  match ann.regions with
  | some rs => rs
  | none => [functionsDefaultRegion]

/-- The trigger built by addResourcesToBackend (parseTriggers.ts lines
156-175).  In the https branch, an absent allowInsecure field defaults to the
truth of (!annotation.platform || annotation.platform === "gcfv1").  The
event branch uses the TS non-null assertion annotation.eventTrigger!; the
none/none fallback below is unreachable behind the structural check. -/
def mkTrigger (ann : TriggerAnn) : FunctionTrigger :=
  match ann.httpsTrigger with
  | some ht =>
    let allowInsecure : Bool :=
      match ht.allowInsecure with
      | some b => b
      | none =>
        match ann.platform with
        | none => true
        | some Platform.gcfv1 => true
        | some Platform.gcfv2 => false
    FunctionTrigger.https allowInsecure
  | none =>
    match ann.eventTrigger with
    | some et => FunctionTrigger.event et.eventType ⟨et.resource⟩ ann.failurePolicy.isSome
    | none => FunctionTrigger.https false

/-- The vpcConnector value written to the FunctionSpec (parseTriggers.ts lines
188-194): skipped when the field is absent or the empty string (JS truthiness
of annotation.vpcConnector); expanded to the full resource path when the value
has no "/" path separator. -/
def mkVpcConnector (projectId region : String) (ann : TriggerAnn) : Option String :=
  match ann.vpcConnector with
  | none => none
  | some v =>
    if v = "" then none
    else if strContainsChar v '/' then some v
    else some ("projects/" ++ projectId ++ "/locations/" ++ region ++ "/connectors/" ++ v)

/-- The base cloudFunction record of one loop iteration (parseTriggers.ts
lines 176-208), before the schedule block.  The copyIfPresent passthrough
fields start undefined on the target, so copy-if-present amounts to copying
the annotation's optional value verbatim. -/
def mkBaseFunction (projectId rt : String) (ann : TriggerAnn) (region : String) : FunctionSpec :=
  { platform := ann.platform.getD Platform.gcfv1
    id := ann.name
    region := region
    project := projectId
    entryPoint := ann.entryPoint
    runtime := rt
    trigger := mkTrigger ann
    vpcConnector := mkVpcConnector projectId region ann
    concurrency := ann.concurrency
    serviceAccountEmail := ann.serviceAccountEmail
    labels := ann.labels
    vpcConnectorEgressSettings := ann.vpcConnectorEgressSettings
    ingressSettings := ann.ingressSettings
    timeout := ann.timeout
    maxInstances := ann.maxInstances
    minInstances := ann.minInstances
    availableMemoryMb := ann.availableMemoryMb
    invoker := ann.invoker }

/-- The cloudFunction pushed for one region, after the schedule block
(parseTriggers.ts lines 210-242): when a schedule is present the event
resource filter gains the "/" ++ schedule-id suffix (https triggers are left
alone) and the deployment-scheduled label is merged over the existing
labels. -/
def mkFunction (projectId rt : String) (ann : TriggerAnn) (region : String) : FunctionSpec :=
  let base := mkBaseFunction projectId rt ann region
  match ann.schedule with
  | none => base
  | some _ =>
    let id := scheduleIdForFunction ⟨ann.name, region, projectId⟩
    { base with
      trigger :=
        match base.trigger with
        | FunctionTrigger.event ty fs rtr => FunctionTrigger.event ty ⟨fs.resource ++ "/" ++ id⟩ rtr
        | t => t
      labels := some (recordSet (base.labels.getD []) "deployment-scheduled" "true") }

/-- The ScheduleSpec pushed for one region of a scheduled annotation
(parseTriggers.ts lines 214-223). -/
def mkSchedule (projectId : String) (ann : TriggerAnn) (s : ScheduleAnn) (region : String) : ScheduleSpec :=
  { id := scheduleIdForFunction ⟨ann.name, region, projectId⟩
    project := projectId
    schedule := s.schedule
    transport := "pubsub"
    targetService := ⟨ann.name, region, projectId⟩
    timeZone := s.timeZone
    retryConfig := s.retryConfig }

/-- The PubSubSpec pushed for one region of a scheduled annotation
(parseTriggers.ts lines 224-230). -/
def mkTopic (projectId : String) (ann : TriggerAnn) (region : String) : PubSubSpec :=
  { id := scheduleIdForFunction ⟨ann.name, region, projectId⟩
    project := projectId
    labels := some SCHEDULED_FUNCTION_LABEL
    targetService := ⟨ann.name, region, projectId⟩ }

/-- The aggregate after one successful loop iteration of addResourcesToBackend
for a region: requiredAPIs, schedules and topics change only when a schedule
is present, and the cloudFunction is pushed last. -/
def applyRegion (projectId rt : String) (ann : TriggerAnn) (w : Backend) (region : String) : Backend :=
  match ann.schedule with
  | none => { w with cloudFunctions := w.cloudFunctions ++ [mkFunction projectId rt ann region] }
  | some s =>
    { w with
      requiredAPIs :=
        recordSet (recordSet w.requiredAPIs "pubsub" "pubsub.googleapis.com")
          "scheduler" "cloudscheduler.googleapis.com"
      cloudFunctions := w.cloudFunctions ++ [mkFunction projectId rt ann region]
      schedules := w.schedules ++ [mkSchedule projectId ann s region]
      topics := w.topics ++ [mkTopic projectId ann region] }

/-- One loop iteration of addResourcesToBackend: the structural-consistency
check (both or neither trigger kind present) is evaluated first, before any
mutation of the aggregate; only when it passes is the region's output added. -/
def processRegion (projectId rt : String) (ann : TriggerAnn) (w : Backend) (region : String) :
    Except FirebaseError Backend :=
  if ann.httpsTrigger.isSome = ann.eventTrigger.isSome then Except.error structuralError
  else Except.ok (applyRegion projectId rt ann w region)

/-- The region loop.  A thrown error carries the aggregate as it stood at the
moment of the throw, mirroring the in-place mutation of the TS code (earlier
iterations' pushes are kept). -/
def addGo (projectId rt : String) (ann : TriggerAnn) :
    List String → Backend → Except (FirebaseError × Backend) Backend
  | [], w => Except.ok w
  | r :: rs, w =>
    match processRegion projectId rt ann w r with
    | Except.error e => Except.error (e, w)
    | Except.ok w2 => addGo projectId rt ann rs w2

/-- addResourcesToBackend (parseTriggers.ts lines 138-246): fold the region
fan-out over the aggregate.  On success the final aggregate is returned; on
the structural-consistency throw the error is returned together with the
aggregate at throw time. -/
def addResourcesToBackend (projectId rt : String) (ann : TriggerAnn) (want : Backend) :
    Except (FirebaseError × Backend) Backend :=
  addGo projectId rt ann (effectiveRegions ann) want

/-- The pure fold of successful region iterations, used to describe the ok
result of addResourcesToBackend. -/
def applyRegions (projectId rt : String) (ann : TriggerAnn) (rs : List String) (w : Backend) : Backend :=
  rs.foldl (applyRegion projectId rt ann) w

/-! ## Data model of functions-config-export.ts -/

/-- The failure kinds of the external key-validation contract: a
validation-kind failure (env.KeyValidationError, carrying the offending key
and a message) or any other failure. -/
inductive EnvErr where
  | keyValidation (key : String) (message : String)
  | other (message : String)
  deriving DecidableEq

/-- An EnvMap success entry of functions-config-export.ts. -/
structure EnvMap where
  origKey : String
  newKey : String
  value : String
  deriving DecidableEq

/-- A fully-populated EnvMap error entry (Required EnvMap). -/
structure EnvMapErr where
  origKey : String
  newKey : String
  err : String
  value : String
  deriving DecidableEq

/-- ConfigToEnvResult from functions-config-export.ts. -/
structure ConfigToEnvResult where
  success : List EnvMap
  errors : List EnvMapErr
  deriving DecidableEq

/-- The fatal error configToEnv throws on a non-validation failure: a
FirebaseError wrapping the original error. -/
inductive FatalErr where
  | firebaseError (message : String) (original : EnvErr)
  deriving DecidableEq

/-- The key transformation of convertKey (functions-config-export.ts lines
140-143): uppercase, then every "." to "_", then every "-" to "_".  The JS
regex replaces are global single-character substitutions, embedded as
character maps. -/
def envKeyTransform (configKey : String) : String :=
  String.mk
    (((configKey.data.map Char.toUpper).map (fun c => if c = '.' then '_' else c)).map
      (fun c => if c = '-' then '_' else c))

/-- convertKey (functions-config-export.ts lines 138-155), parameterised by
the external validator env.validateKey.  Modelled from the spec: env.ts is
not part of the embedded sources, so validateKey is an arbitrary function
that either succeeds or fails with an EnvErr.  A validation-kind failure of
the transformed key triggers one retry with the prefix prepended; the retry's
validation is not caught, so its failure propagates.  A non-validation
failure of the first validation is swallowed by the catch block (the TS
rethrows nothing there) and the transformed key is returned as-is. -/
def convertKey (vk : String → Except EnvErr Unit) (configKey pfx : String) : Except EnvErr String :=
  let baseKey := envKeyTransform configKey
  match vk baseKey with
  | Except.ok _ => Except.ok baseKey
  | Except.error (EnvErr.keyValidation _ _) =>
    let envKey := pfx ++ baseKey
    match vk envKey with
    | Except.ok _ => Except.ok envKey
    | Except.error e2 => Except.error e2
  | Except.error (EnvErr.other _) => Except.ok baseKey

/-- Is the conversion outcome a non-validation failure? -/
def isOtherErr (r : Except EnvErr String) : Bool :=
  match r with
  | Except.error (EnvErr.other _) => true
  | _ => false

/-- The success entries configToEnv collects: one per leaf whose conversion
succeeds, in order. -/
def convSuccess (vk : String → Except EnvErr Unit) (pfx : String)
    (configs : List (String × String)) : List EnvMap :=
  configs.filterMap fun kv =>
    match convertKey vk kv.1 pfx with
    | Except.ok nk => some ⟨kv.1, nk, kv.2⟩
    | Except.error _ => none

/-- The error entries configToEnv collects: one per leaf whose conversion
fails with a validation-kind error, carrying the attempted key and the
failure message from that error. -/
def convErrors (vk : String → Except EnvErr Unit) (pfx : String)
    (configs : List (String × String)) : List EnvMapErr :=
  configs.filterMap fun kv =>
    match convertKey vk kv.1 pfx with
    | Except.error (EnvErr.keyValidation key msg) => some ⟨kv.1, key, msg, kv.2⟩
    | _ => none

/-- The loop of configToEnv (functions-config-export.ts lines 169-188) with
its success and errors accumulators.  A validation-kind failure is collected;
any other failure aborts the whole call with a wrapping FirebaseError. -/
def configToEnvGo (vk : String → Except EnvErr Unit) (pfx : String) :
    List (String × String) → List EnvMap → List EnvMapErr → Except FatalErr ConfigToEnvResult
  | [], succ, errs => Except.ok ⟨succ, errs⟩
  | (k, v) :: rest, succ, errs =>
    match convertKey vk k pfx with
    | Except.ok envKey => configToEnvGo vk pfx rest (succ ++ [⟨k, envKey, v⟩]) errs
    | Except.error (EnvErr.keyValidation key msg) =>
      configToEnvGo vk pfx rest succ (errs ++ [⟨k, key, msg, v⟩])
    | Except.error (EnvErr.other m) =>
      Except.error (FatalErr.firebaseError "Unexpected error while converting config" (EnvErr.other m))

/-- configToEnv (functions-config-export.ts lines 165-190).  The input is the
already-flattened list of dotted leaf key/value pairs (flattening is done by
the external flat package before the loop). -/
def configToEnv (vk : String → Except EnvErr Unit) (configs : List (String × String))
    (pfx : String) : Except FatalErr ConfigToEnvResult :=
  configToEnvGo vk pfx configs [] []

/-! ## The dotenv formatter of functions-config-export.ts -/

/-- Replace the first occurrence of the character by the replacement
characters: the semantics of a JS String.prototype.replace whose pattern is a
one-character string. -/
def replaceFirstChar (c : Char) (rep : List Char) : List Char → List Char
  | [] => []
  | x :: xs => if x = c then rep ++ xs else x :: replaceFirstChar c rep xs

/-- Prefix every single or double quote with a backslash: the global regex
replace of escape (functions-config-export.ts line 232). -/
def escapeQuotesList : List Char → List Char
  | [] => []
  | c :: cs =>
    if c = squoteChar ∨ c = quoteChar then backslashChar :: c :: escapeQuotesList cs
    else c :: escapeQuotesList cs

/-- The four single-shot control-character replacements of escape
(functions-config-export.ts lines 226-230), in source order: newline, then
carriage return, then tab, then vertical tab. -/
def escapeCtl (l : List Char) : List Char :=
  replaceFirstChar vtabChar [backslashChar, 'v']
    (replaceFirstChar '\t' [backslashChar, 't']
      (replaceFirstChar '\r' [backslashChar, 'r']
        (replaceFirstChar '\n' [backslashChar, 'n'] l)))

/-- escape (functions-config-export.ts lines 224-234). -/
def escape (s : String) : String :=
  String.mk (escapeQuotesList (escapeCtl s.data))

/-- One rendered line before padding: newKey="escaped-value". -/
def renderLine (e : EnvMap) : String :=
  e.newKey ++ "=" ++ dquoteStr ++ escape e.value ++ dquoteStr

/-- JS String.prototype.padEnd with spaces. -/
def padEndStr (s : String) (n : Nat) : String :=
  s ++ String.mk (List.replicate (n - s.length) ' ')

/-- toDotenvFormat (functions-config-export.ts lines 236-242): render each
entry, right-pad every line to the maximum rendered length (the JS
Math.max spread embedded as a fold), append the provenance comment, join
with newlines. -/
def toDotenvFormat (envs : List EnvMap) : String :=
  let lines := envs.map renderLine
  let maxLineLen := (lines.map String.length).foldl Nat.max 0
  String.intercalate "\n"
    (List.zipWith (fun line e => padEndStr line maxLineLen ++ " # from " ++ e.origKey) lines envs)

/-! ## Spec-side formulations for the dotenv formatter (written from the
spec's words, to be compared with the source embedding above) -/

/-- Spec-side first-occurrence replacement: if the character occurs, keep the
longest occurrence-free head, insert the replacement, keep the tail after the
first occurrence; otherwise leave the input unchanged. -/
def replaceFirstSpec (c : Char) (rep : List Char) (l : List Char) : List Char :=
  if c ∈ l then l.takeWhile (fun x => x != c) ++ rep ++ (l.dropWhile (fun x => x != c)).drop 1
  else l

/-- Spec-side quote escaping: every single-quote and double-quote character is
prefixed with a backslash, all other characters are kept. -/
def escapeQuotesSpec (l : List Char) : List Char :=
  (l.map fun c =>
    if c = squoteChar ∨ c = quoteChar then [backslashChar, c] else [c]).flatten

/-- Spec-side escaping: first-occurrence-only replacement of newline, carriage
return, tab and vertical tab (in that order) by their backslash sequences,
then backslash-prefixing of every quote character. -/
def escapeSpec (s : String) : String :=
  String.mk
    (escapeQuotesSpec
      (replaceFirstSpec vtabChar [backslashChar, 'v']
        (replaceFirstSpec '\t' [backslashChar, 't']
          (replaceFirstSpec '\r' [backslashChar, 'r']
            (replaceFirstSpec '\n' [backslashChar, 'n'] s.data)))))

/-- Spec-side rendered line: KEY="escaped-value". -/
def renderLineSpec (e : EnvMap) : String :=
  e.newKey ++ "=" ++ dquoteStr ++ escapeSpec e.value ++ dquoteStr

/-- The maximum of a list of naturals (0 for the empty list). -/
def maxNatList : List Nat → Nat
  | [] => 0
  | a :: as => Nat.max a (maxNatList as)

/-- Spec-side dotenv format: one line per entry, the rendered line
right-padded to the maximum rendered line length and followed by the
provenance comment, joined by newlines. -/
def toDotenvFormatSpec (envs : List EnvMap) : String :=
  let maxLen := maxNatList (envs.map fun e => (renderLineSpec e).length)
  String.intercalate "\n"
    (envs.map fun e => padEndStr (renderLineSpec e) maxLen ++ " # from " ++ e.origKey)

/-! ## Concrete sample values used by witnesses and counterexamples -/

/-- The empty aggregate. -/
def backend0 : Backend :=
  { requiredAPIs := [], cloudFunctions := [], schedules := [], topics := []
    environmentVariables := [] }

/-- A minimal well-formed https-triggered annotation. -/
def httpsAnn : TriggerAnn :=
  { name := "fn"
    platform := none
    labels := none
    entryPoint := "fn"
    vpcConnector := none
    vpcConnectorEgressSettings := none
    ingressSettings := none
    availableMemoryMb := none
    timeout := none
    maxInstances := none
    minInstances := none
    serviceAccountEmail := none
    httpsTrigger := some { allowInsecure := none }
    eventTrigger := none
    failurePolicy := none
    schedule := none
    timeZone := none
    regions := none
    concurrency := none
    invoker := none }

/-- An https annotation with a present-but-empty regions list. -/
def httpsAnnEmptyRegions : TriggerAnn := { httpsAnn with regions := some [] }

/-- An https annotation fanning out over two regions. -/
def httpsAnnTwoRegions : TriggerAnn := { httpsAnn with regions := some ["r1", "r2"] }

/-- An ill-formed annotation carrying both trigger kinds. -/
def bothAnn : TriggerAnn :=
  { httpsAnn with eventTrigger := some ⟨"et", "res", "svc"⟩ }

/-- An ill-formed annotation carrying both trigger kinds and an empty regions
list. -/
def bothAnnEmptyRegions : TriggerAnn := { bothAnn with regions := some [] }

/-- A scheduled event-triggered annotation with a pre-existing label. -/
def schedAnn : TriggerAnn :=
  { httpsAnn with
    httpsTrigger := none
    eventTrigger := some ⟨"google.pubsub.topic.publish", "projects/proj/topics", "pubsub.googleapis.com"⟩
    labels := some [("team", "a")]
    schedule := some ⟨"every 5 minutes", none, none⟩ }

/-- An https annotation with a present-but-empty vpcConnector, one region. -/
def vpcEmptyAnn : TriggerAnn :=
  { httpsAnn with vpcConnector := some "", regions := some ["r"] }

/-- An https annotation with a bare vpcConnector id, one region. -/
def vpcAnn : TriggerAnn :=
  { httpsAnn with vpcConnector := some "conn1", regions := some ["r"] }

/-- A concrete key validator for witnesses: keys starting with FIREBASE_ fail
with a validation-kind error, everything else passes. -/
def vkReserved : String → Except EnvErr Unit := fun k =>
  if List.isPrefixOf "FIREBASE_".data k.data then
    Except.error (EnvErr.keyValidation k "Key cannot start with FIREBASE_")
  else Except.ok ()

/-- A concrete key validator for witnesses: prefixed keys (CFG_...) fail with
a non-validation error, keys starting with X_ fail with a validation-kind
error, everything else passes.  Exercises the fatal path of configToEnv: only
the uncaught retry validation can surface a non-validation failure. -/
def vkCrash : String → Except EnvErr Unit := fun k =>
  if List.isPrefixOf "CFG_".data k.data then Except.error (EnvErr.other "boom")
  else if List.isPrefixOf "X_".data k.data then Except.error (EnvErr.keyValidation k "bad key")
  else Except.ok ()

/-! ## Lemmas about association-list assignment -/

theorem lookup_cons_eq (k a b : String) (es : List (String × String)) (h : k = a) :
    List.lookup k ((a, b) :: es) = some b := by
  subst h; simp [List.lookup]

theorem lookup_cons_ne (k a b : String) (es : List (String × String)) (h : k ≠ a) :
    List.lookup k ((a, b) :: es) = List.lookup k es := by
  have hb : (k == a) = false := beq_eq_false_iff_ne.mpr h
  simp [List.lookup, hb]

theorem setPair_eq (k v a b : String) (h : a = k) : setPair k v (a, b) = (k, v) := by
  simp [setPair, h]

theorem setPair_ne (k v a b : String) (h : a ≠ k) : setPair k v (a, b) = (a, b) := by
  simp [setPair, h]

theorem lookup_setAll_self (k v : String) :
    ∀ m : List (String × String), (m.any fun q => decide (q.1 = k)) = true →
      List.lookup k (m.map (setPair k v)) = some v := by
  intro m
  induction m with
  | nil => intro h; simp at h
  | cons hd tl ih =>
    intro h
    obtain ⟨a, b⟩ := hd
    rw [List.map_cons]
    by_cases hak : a = k
    · rw [setPair_eq k v a b hak]
      exact lookup_cons_eq k k v _ rfl
    · have hk : (tl.any fun q => decide (q.1 = k)) = true := by
        simpa [hak] using h
      rw [setPair_ne k v a b hak, lookup_cons_ne k a b _ (fun hh => hak hh.symm)]
      exact ih hk

theorem lookup_setAll_other (k k' v : String) (h : k' ≠ k) :
    ∀ m : List (String × String),
      List.lookup k' (m.map (setPair k v)) = List.lookup k' m := by
  intro m
  induction m with
  | nil => simp
  | cons hd tl ih =>
    obtain ⟨a, b⟩ := hd
    rw [List.map_cons]
    by_cases hak : a = k
    · rw [setPair_eq k v a b hak, lookup_cons_ne k' k v _ h,
        lookup_cons_ne k' a b _ (by rw [hak]; exact h)]
      exact ih
    · rw [setPair_ne k v a b hak]
      by_cases hka : k' = a
      · rw [lookup_cons_eq k' a b _ hka, lookup_cons_eq k' a b _ hka]
      · rw [lookup_cons_ne k' a b _ hka, lookup_cons_ne k' a b _ hka]
        exact ih

theorem lookup_append_single_self (k v : String) :
    ∀ m : List (String × String), (m.any fun q => decide (q.1 = k)) = false →
      List.lookup k (m ++ [(k, v)]) = some v := by
  intro m
  induction m with
  | nil => intro h; exact lookup_cons_eq k k v [] rfl
  | cons hd tl ih =>
    intro h
    obtain ⟨a, b⟩ := hd
    simp only [List.any_cons, Bool.or_eq_false_iff, decide_eq_false_iff_not] at h
    rw [List.cons_append, lookup_cons_ne k a b _ (fun hh => h.1 hh.symm)]
    exact ih h.2

theorem lookup_append_single_other (k k' v : String) (h : k' ≠ k) :
    ∀ m : List (String × String), List.lookup k' (m ++ [(k, v)]) = List.lookup k' m := by
  intro m
  induction m with
  | nil => simpa using lookup_cons_ne k' k v [] h
  | cons hd tl ih =>
    obtain ⟨a, b⟩ := hd
    rw [List.cons_append]
    by_cases hka : k' = a
    · rw [lookup_cons_eq k' a b _ hka, lookup_cons_eq k' a b _ hka]
    · rw [lookup_cons_ne k' a b _ hka, lookup_cons_ne k' a b _ hka]
      exact ih

theorem lookup_recordSet_self (m : List (String × String)) (k v : String) :
    List.lookup k (recordSet m k v) = some v := by
  unfold recordSet
  cases hx : (m.any fun q => decide (q.1 = k)) with
  | true => simpa [hx] using lookup_setAll_self k v m hx
  | false => simpa [hx] using lookup_append_single_self k v m hx

theorem lookup_recordSet_other (m : List (String × String)) (k k' v : String) (h : k' ≠ k) :
    List.lookup k' (recordSet m k v) = List.lookup k' m := by
  unfold recordSet
  cases hx : (m.any fun q => decide (q.1 = k)) with
  | true => simpa [hx] using lookup_setAll_other k k' v h m
  | false => simpa [hx] using lookup_append_single_other k k' v h m

/-! ## Lemmas about the region loop of addResourcesToBackend -/

theorem applyRegions_nil (p rt : String) (ann : TriggerAnn) (w : Backend) :
    applyRegions p rt ann [] w = w := rfl

theorem applyRegions_cons (p rt : String) (ann : TriggerAnn) (r : String) (rs : List String)
    (w : Backend) :
    applyRegions p rt ann (r :: rs) w = applyRegions p rt ann rs (applyRegion p rt ann w r) := rfl

theorem applyRegion_cloudFunctions (p rt : String) (ann : TriggerAnn) (w : Backend) (r : String) :
    (applyRegion p rt ann w r).cloudFunctions = w.cloudFunctions ++ [mkFunction p rt ann r] := by
  rcases hs : ann.schedule with _ | s <;> simp [applyRegion, hs]

theorem applyRegion_schedules (p rt : String) (ann : TriggerAnn) (s : ScheduleAnn) (w : Backend)
    (r : String) (hs : ann.schedule = some s) :
    (applyRegion p rt ann w r).schedules = w.schedules ++ [mkSchedule p ann s r] := by
  simp [applyRegion, hs]

theorem applyRegion_topics (p rt : String) (ann : TriggerAnn) (s : ScheduleAnn) (w : Backend)
    (r : String) (hs : ann.schedule = some s) :
    (applyRegion p rt ann w r).topics = w.topics ++ [mkTopic p ann r] := by
  simp [applyRegion, hs]

theorem applyRegion_apis (p rt : String) (ann : TriggerAnn) (s : ScheduleAnn) (w : Backend)
    (r : String) (hs : ann.schedule = some s) :
    (applyRegion p rt ann w r).requiredAPIs =
      recordSet (recordSet w.requiredAPIs "pubsub" "pubsub.googleapis.com")
        "scheduler" "cloudscheduler.googleapis.com" := by
  simp [applyRegion, hs]

theorem applyRegions_cloudFunctions (p rt : String) (ann : TriggerAnn) :
    ∀ (rs : List String) (w : Backend),
      (applyRegions p rt ann rs w).cloudFunctions =
        w.cloudFunctions ++ rs.map (mkFunction p rt ann) := by
  intro rs
  induction rs with
  | nil => intro w; simp [applyRegions_nil]
  | cons r rs ih =>
    intro w
    rw [applyRegions_cons, ih, applyRegion_cloudFunctions]
    simp

theorem applyRegions_schedules (p rt : String) (ann : TriggerAnn) (s : ScheduleAnn)
    (hs : ann.schedule = some s) :
    ∀ (rs : List String) (w : Backend),
      (applyRegions p rt ann rs w).schedules = w.schedules ++ rs.map (mkSchedule p ann s) := by
  intro rs
  induction rs with
  | nil => intro w; simp [applyRegions_nil]
  | cons r rs ih =>
    intro w
    rw [applyRegions_cons, ih, applyRegion_schedules p rt ann s w r hs]
    simp

theorem applyRegions_topics (p rt : String) (ann : TriggerAnn) (s : ScheduleAnn)
    (hs : ann.schedule = some s) :
    ∀ (rs : List String) (w : Backend),
      (applyRegions p rt ann rs w).topics = w.topics ++ rs.map (mkTopic p ann) := by
  intro rs
  induction rs with
  | nil => intro w; simp [applyRegions_nil]
  | cons r rs ih =>
    intro w
    rw [applyRegions_cons, ih, applyRegion_topics p rt ann s w r hs]
    simp

theorem applyRegions_apis (p rt : String) (ann : TriggerAnn) (s : ScheduleAnn)
    (hs : ann.schedule = some s) :
    ∀ (rs : List String), rs ≠ [] → ∀ w : Backend,
      List.lookup "pubsub" (applyRegions p rt ann rs w).requiredAPIs
          = some "pubsub.googleapis.com" ∧
        List.lookup "scheduler" (applyRegions p rt ann rs w).requiredAPIs
          = some "cloudscheduler.googleapis.com" := by
  intro rs
  induction rs with
  | nil => intro h; exact absurd rfl h
  | cons r rs ih =>
    intro _ w
    rcases Decidable.em (rs = []) with hnil | hne
    · subst hnil
      rw [applyRegions_cons, applyRegions_nil, applyRegion_apis p rt ann s w r hs]
      constructor
      · rw [lookup_recordSet_other _ _ _ _ (show "pubsub" ≠ "scheduler" by decide)]
        exact lookup_recordSet_self _ _ _
      · exact lookup_recordSet_self _ _ _
    · rw [applyRegions_cons]
      exact ih hne _

theorem processRegion_ok (p rt : String) (ann : TriggerAnn) (w : Backend) (r : String)
    (hx : ¬ann.httpsTrigger.isSome = ann.eventTrigger.isSome) :
    processRegion p rt ann w r = Except.ok (applyRegion p rt ann w r) := by
  unfold processRegion; rw [if_neg hx]

theorem processRegion_err (p rt : String) (ann : TriggerAnn) (w : Backend) (r : String)
    (hx : ann.httpsTrigger.isSome = ann.eventTrigger.isSome) :
    processRegion p rt ann w r = Except.error structuralError := by
  unfold processRegion; rw [if_pos hx]

theorem addGo_ok (p rt : String) (ann : TriggerAnn)
    (hx : ¬ann.httpsTrigger.isSome = ann.eventTrigger.isSome) :
    ∀ (rs : List String) (w : Backend),
      addGo p rt ann rs w = Except.ok (applyRegions p rt ann rs w) := by
  intro rs
  induction rs with
  | nil => intro w; rfl
  | cons r rs ih =>
    intro w
    simp only [addGo, processRegion_ok p rt ann w r hx]
    rw [ih, applyRegions_cons]

theorem addGo_err (p rt : String) (ann : TriggerAnn) :
    ∀ (rs : List String) (w : Backend) (e : FirebaseError) (w2 : Backend),
      addGo p rt ann rs w = Except.error (e, w2) →
        ann.httpsTrigger.isSome = ann.eventTrigger.isSome ∧ e = structuralError ∧ w2 = w := by
  intro rs
  induction rs with
  | nil =>
    intro w e w2 h
    exact absurd h (by simp [addGo])
  | cons r rs ih =>
    intro w e w2 h
    by_cases hx : ann.httpsTrigger.isSome = ann.eventTrigger.isSome
    · simp only [addGo, processRegion_err p rt ann w r hx] at h
      have h2 := h
      simp only [Except.error.injEq, Prod.mk.injEq] at h2
      exact ⟨hx, h2.1.symm, h2.2.symm⟩
    · simp only [addGo, processRegion_ok p rt ann w r hx] at h
      exact absurd (ih _ e w2 h).1 hx

/-! ## Lemmas about the per-region cloudFunction -/

theorem mkFunction_id (p rt : String) (ann : TriggerAnn) (r : String) :
    (mkFunction p rt ann r).id = ann.name := by
  rcases hs : ann.schedule with _ | s <;> simp [mkFunction, mkBaseFunction, hs]

theorem mkFunction_project (p rt : String) (ann : TriggerAnn) (r : String) :
    (mkFunction p rt ann r).project = p := by
  rcases hs : ann.schedule with _ | s <;> simp [mkFunction, mkBaseFunction, hs]

theorem mkFunction_region (p rt : String) (ann : TriggerAnn) (r : String) :
    (mkFunction p rt ann r).region = r := by
  rcases hs : ann.schedule with _ | s <;> simp [mkFunction, mkBaseFunction, hs]

theorem mkFunction_vpcConnector (p rt : String) (ann : TriggerAnn) (r : String) :
    (mkFunction p rt ann r).vpcConnector = mkVpcConnector p r ann := by
  rcases hs : ann.schedule with _ | s <;> simp [mkFunction, mkBaseFunction, hs]

theorem mkFunction_trigger_https (p rt : String) (ann : TriggerAnn) (r : String)
    (ht : HttpsTriggerAnn) (hh : ann.httpsTrigger = some ht) :
    (mkFunction p rt ann r).trigger = FunctionTrigger.https
      (match ht.allowInsecure with
       | some b => b
       | none =>
         match ann.platform with
         | none => true
         | some Platform.gcfv1 => true
         | some Platform.gcfv2 => false) := by
  rcases hs : ann.schedule with _ | s <;>
    simp [mkFunction, mkBaseFunction, mkTrigger, hs, hh]

theorem mkFunction_trigger_event_sched (p rt : String) (ann : TriggerAnn) (r : String)
    (et : EventTriggerAnn) (s : ScheduleAnn) (hh : ann.httpsTrigger = none)
    (he : ann.eventTrigger = some et) (hs : ann.schedule = some s) :
    (mkFunction p rt ann r).trigger = FunctionTrigger.event et.eventType
      ⟨et.resource ++ "/" ++ scheduleIdForFunction ⟨ann.name, r, p⟩⟩
      ann.failurePolicy.isSome := by
  simp [mkFunction, mkBaseFunction, mkTrigger, hs, hh, he]

theorem mkFunction_labels_sched (p rt : String) (ann : TriggerAnn) (r : String)
    (s : ScheduleAnn) (hs : ann.schedule = some s) :
    (mkFunction p rt ann r).labels
      = some (recordSet (ann.labels.getD []) "deployment-scheduled" "true") := by
  simp [mkFunction, mkBaseFunction, hs]

/-! ## Claim theorems: addResourcesToBackend -/

/-- C1 counterexample: an https annotation with a present-but-empty regions
list.  The claim demands exactly one appended FunctionSpec with the default
region, but the loop of addResourcesToBackend iterates over the empty array
(a present JS array is truthy, so the || fallback is not taken) and appends
nothing. -/
theorem addResources_emptyRegions_noFunction :
    ¬∃ v, addResourcesToBackend "p" "nodejs14" httpsAnnEmptyRegions backend0 = Except.ok v
        ∧ v.cloudFunctions.length = 1 := by
  rintro ⟨v, hv, hl⟩
  have h0 : addResourcesToBackend "p" "nodejs14" httpsAnnEmptyRegions backend0
      = Except.ok backend0 := by decide
  rw [h0] at hv
  cases hv
  exact absurd hl (by decide)

/-- C1 (amended): for every annotation with exactly one trigger kind,
addResourcesToBackend succeeds and appends one FunctionSpec per element of
the effective region list, in order, each carrying id = annotation.name,
the given project, and the corresponding region (hence pairwise distinct
regions whenever the listed regions are distinct); an absent regions field
yields exactly one entry with the default region, while a present-but-empty
regions list yields no entry. -/
theorem addResources_region_fanout (p rt : String) (ann : TriggerAnn) (want : Backend)
    (hx : ¬ann.httpsTrigger.isSome = ann.eventTrigger.isSome) :
    ∃ v, addResourcesToBackend p rt ann want = Except.ok v
      ∧ v.cloudFunctions = want.cloudFunctions ++ (effectiveRegions ann).map (mkFunction p rt ann)
      ∧ (∀ r, (mkFunction p rt ann r).id = ann.name ∧ (mkFunction p rt ann r).project = p
          ∧ (mkFunction p rt ann r).region = r)
      ∧ (ann.regions = none → effectiveRegions ann = [functionsDefaultRegion])
      ∧ (∀ rs, ann.regions = some rs → effectiveRegions ann = rs) := by
  refine ⟨applyRegions p rt ann (effectiveRegions ann) want,
    addGo_ok p rt ann hx (effectiveRegions ann) want,
    applyRegions_cloudFunctions p rt ann _ want, ?_, ?_, ?_⟩
  · intro r
    exact ⟨mkFunction_id p rt ann r, mkFunction_project p rt ann r, mkFunction_region p rt ann r⟩
  · intro h; simp [effectiveRegions, h]
  · intro rs h; simp [effectiveRegions, h]

/-- C1 witness: the two-region https annotation satisfies the hypotheses and
produces the two-entry fan-out. -/
theorem addResources_region_fanout_witness :
    (¬httpsAnnTwoRegions.httpsTrigger.isSome = httpsAnnTwoRegions.eventTrigger.isSome)
    ∧ ∃ v, addResourcesToBackend "p" "nodejs14" httpsAnnTwoRegions backend0 = Except.ok v
      ∧ v.cloudFunctions = backend0.cloudFunctions
          ++ (effectiveRegions httpsAnnTwoRegions).map (mkFunction "p" "nodejs14" httpsAnnTwoRegions)
      ∧ (∀ r, (mkFunction "p" "nodejs14" httpsAnnTwoRegions r).id = httpsAnnTwoRegions.name
          ∧ (mkFunction "p" "nodejs14" httpsAnnTwoRegions r).project = "p"
          ∧ (mkFunction "p" "nodejs14" httpsAnnTwoRegions r).region = r)
      ∧ (httpsAnnTwoRegions.regions = none →
          effectiveRegions httpsAnnTwoRegions = [functionsDefaultRegion])
      ∧ (∀ rs, httpsAnnTwoRegions.regions = some rs →
          effectiveRegions httpsAnnTwoRegions = rs) :=
  ⟨by decide, addResources_region_fanout "p" "nodejs14" httpsAnnTwoRegions backend0 (by decide)⟩

/-- C2 counterexample: an annotation carrying both trigger kinds together with
a present-but-empty regions list makes addResourcesToBackend return
successfully (the structural check lives inside the region loop, which never
runs), contradicting the claim that every such annotation fails. -/
theorem addResources_bothTriggers_emptyRegions_ok :
    bothAnnEmptyRegions.httpsTrigger.isSome = true
    ∧ bothAnnEmptyRegions.eventTrigger.isSome = true
    ∧ addResourcesToBackend "p" "nodejs14" bothAnnEmptyRegions backend0 = Except.ok backend0 :=
  ⟨by decide, by decide, by decide⟩

/-- C2 (amended): for every annotation with both or neither trigger kind
present, provided its effective region list (the listed regions, or the
default region when the field is absent) is non-empty, addResourcesToBackend
fails with the structural-consistency error and leaves the aggregate
untouched. -/
theorem addResources_structural_error (p rt : String) (ann : TriggerAnn) (want : Backend)
    (hx : ann.httpsTrigger.isSome = ann.eventTrigger.isSome)
    (hr : effectiveRegions ann ≠ []) :
    addResourcesToBackend p rt ann want = Except.error (structuralError, want) := by
  rcases hrx : effectiveRegions ann with _ | ⟨r, rs⟩
  · exact absurd hrx hr
  · unfold addResourcesToBackend
    rw [hrx]
    simp only [addGo, processRegion_err p rt ann want r hx]

/-- C2 witness: the both-trigger annotation with an absent regions field
throws the structural error without touching the aggregate. -/
theorem addResources_structural_error_witness :
    (bothAnn.httpsTrigger.isSome = bothAnn.eventTrigger.isSome)
    ∧ effectiveRegions bothAnn ≠ []
    ∧ addResourcesToBackend "p" "nodejs14" bothAnn backend0
        = Except.error (structuralError, backend0) :=
  ⟨by decide, by decide,
    addResources_structural_error "p" "nodejs14" bothAnn backend0 (by decide) (by decide)⟩

/-- C10: whenever addResourcesToBackend throws, the aggregate carried out of
the call is exactly the input aggregate (the structural check is evaluated in
the first loop iteration before any mutation), and the error is the
structural-consistency error. -/
theorem addResources_error_frame (p rt : String) (ann : TriggerAnn) (want : Backend)
    (e : FirebaseError) (w2 : Backend)
    (h : addResourcesToBackend p rt ann want = Except.error (e, w2)) :
    w2 = want ∧ e = structuralError := by
  have hmain := addGo_err p rt ann (effectiveRegions ann) want e w2 h
  exact ⟨hmain.2.2, hmain.2.1⟩

/-- C10 witness: the both-trigger annotation errors and the carried aggregate
is the untouched input. -/
theorem addResources_error_frame_witness :
    (addResourcesToBackend "p" "nodejs14" bothAnn backend0
      = Except.error (structuralError, backend0))
    ∧ (backend0 = backend0 ∧ structuralError = structuralError) :=
  ⟨by decide,
    addResources_error_frame "p" "nodejs14" bothAnn backend0 structuralError backend0 (by decide)⟩

/-- C5: for every https-triggered annotation, every FunctionSpec the call
appends carries an https trigger whose allowInsecure equals the explicit
field value when present, and otherwise is true exactly when the platform is
absent or first-generation and false when it is second-generation. -/
theorem addResources_allowInsecure (p rt : String) (ann : TriggerAnn) (want : Backend)
    (ht : HttpsTriggerAnn) (hh : ann.httpsTrigger = some ht) (he : ann.eventTrigger = none) :
    ∃ v, addResourcesToBackend p rt ann want = Except.ok v
      ∧ v.cloudFunctions = want.cloudFunctions ++ (effectiveRegions ann).map (mkFunction p rt ann)
      ∧ (∀ b, ht.allowInsecure = some b →
          ∀ r, (mkFunction p rt ann r).trigger = FunctionTrigger.https b)
      ∧ (ht.allowInsecure = none → (ann.platform = none ∨ ann.platform = some Platform.gcfv1) →
          ∀ r, (mkFunction p rt ann r).trigger = FunctionTrigger.https true)
      ∧ (ht.allowInsecure = none → ann.platform = some Platform.gcfv2 →
          ∀ r, (mkFunction p rt ann r).trigger = FunctionTrigger.https false) := by
  have hx : ¬ann.httpsTrigger.isSome = ann.eventTrigger.isSome := by simp [hh, he]
  refine ⟨applyRegions p rt ann (effectiveRegions ann) want,
    addGo_ok p rt ann hx (effectiveRegions ann) want,
    applyRegions_cloudFunctions p rt ann _ want, ?_, ?_, ?_⟩
  · intro b hb r
    rw [mkFunction_trigger_https p rt ann r ht hh, hb]
  · intro hb hp r
    rw [mkFunction_trigger_https p rt ann r ht hh, hb]
    rcases hp with hp | hp <;> rw [hp]
  · intro hb hp r
    rw [mkFunction_trigger_https p rt ann r ht hh, hb, hp]

/-- C5 witness: the minimal https annotation (no explicit allowInsecure, no
platform tag) derives allowInsecure = true. -/
theorem addResources_allowInsecure_witness :
    (httpsAnn.httpsTrigger = some ⟨none⟩) ∧ (httpsAnn.eventTrigger = none)
    ∧ ∃ v, addResourcesToBackend "p" "nodejs14" httpsAnn backend0 = Except.ok v
      ∧ v.cloudFunctions = backend0.cloudFunctions
          ++ (effectiveRegions httpsAnn).map (mkFunction "p" "nodejs14" httpsAnn)
      ∧ (∀ b, (⟨none⟩ : HttpsTriggerAnn).allowInsecure = some b →
          ∀ r, (mkFunction "p" "nodejs14" httpsAnn r).trigger = FunctionTrigger.https b)
      ∧ ((⟨none⟩ : HttpsTriggerAnn).allowInsecure = none →
          (httpsAnn.platform = none ∨ httpsAnn.platform = some Platform.gcfv1) →
          ∀ r, (mkFunction "p" "nodejs14" httpsAnn r).trigger = FunctionTrigger.https true)
      ∧ ((⟨none⟩ : HttpsTriggerAnn).allowInsecure = none →
          httpsAnn.platform = some Platform.gcfv2 →
          ∀ r, (mkFunction "p" "nodejs14" httpsAnn r).trigger = FunctionTrigger.https false) :=
  ⟨rfl, rfl, addResources_allowInsecure "p" "nodejs14" httpsAnn backend0 ⟨none⟩ rfl rfl⟩

/-- C8 counterexample: a present-but-empty vpcConnector is skipped entirely
(JS truthiness of the empty string), so the appended FunctionSpec carries no
vpcConnector instead of the claimed expanded resource path. -/
theorem addResources_vpcConnector_empty_cex :
    vpcEmptyAnn.vpcConnector = some ""
    ∧ ∃ v, addResourcesToBackend "p" "nodejs14" vpcEmptyAnn backend0 = Except.ok v
        ∧ v.cloudFunctions.map (fun f => f.vpcConnector) = [none] :=
  ⟨by decide, ⟨_, rfl, by decide⟩⟩

/-- C8 (amended): for every annotation with a non-empty vpcConnector value,
every appended FunctionSpec carries the value unchanged when it contains a
"/" and the fully-qualified connector path for its region otherwise. -/
theorem addResources_vpcConnector_expansion (p rt : String) (ann : TriggerAnn) (want : Backend)
    (vc : String) (hx : ¬ann.httpsTrigger.isSome = ann.eventTrigger.isSome)
    (hv : ann.vpcConnector = some vc) (hne : vc ≠ "") :
    ∃ v, addResourcesToBackend p rt ann want = Except.ok v
      ∧ v.cloudFunctions = want.cloudFunctions ++ (effectiveRegions ann).map (mkFunction p rt ann)
      ∧ ∀ r, (mkFunction p rt ann r).vpcConnector =
          some (if strContainsChar vc '/' then vc
            else "projects/" ++ p ++ "/locations/" ++ r ++ "/connectors/" ++ vc) := by
  refine ⟨applyRegions p rt ann (effectiveRegions ann) want,
    addGo_ok p rt ann hx (effectiveRegions ann) want,
    applyRegions_cloudFunctions p rt ann _ want, ?_⟩
  intro r
  rw [mkFunction_vpcConnector]
  unfold mkVpcConnector
  rw [hv]
  by_cases hc : strContainsChar vc '/' <;> simp [hne, hc]

/-- C8 witness: a bare connector id without separator is expanded into the
full resource path for the processed region. -/
theorem addResources_vpcConnector_expansion_witness :
    (¬vpcAnn.httpsTrigger.isSome = vpcAnn.eventTrigger.isSome)
    ∧ vpcAnn.vpcConnector = some "conn1"
    ∧ ("conn1" : String) ≠ ""
    ∧ ∃ v, addResourcesToBackend "p" "nodejs14" vpcAnn backend0 = Except.ok v
      ∧ v.cloudFunctions = backend0.cloudFunctions
          ++ (effectiveRegions vpcAnn).map (mkFunction "p" "nodejs14" vpcAnn)
      ∧ ∀ r, (mkFunction "p" "nodejs14" vpcAnn r).vpcConnector =
          some (if strContainsChar "conn1" '/' then "conn1"
            else "projects/" ++ "p" ++ "/locations/" ++ r ++ "/connectors/" ++ "conn1") :=
  ⟨by decide, by decide, by decide,
    addResources_vpcConnector_expansion "p" "nodejs14" vpcAnn backend0 "conn1"
      (by decide) (by decide) (by decide)⟩

/-- C3: for every scheduled annotation (with exactly one trigger kind), the
call succeeds; per processed region the appended ScheduleSpec and PubSubSpec
share the deterministic id derived from the function identity triple; when at
least one region is processed both pubsub and scheduler are present in
requiredAPIs afterwards; every appended FunctionSpec gains the
deployment-scheduled label merged over (not replacing) its existing labels;
an event trigger has its eventFilters.resource rewritten to the original
resource followed by "/" and the schedule id, while an https trigger is left
an https trigger and no error is thrown. -/
theorem addResources_schedule_invariants (p rt : String) (ann : TriggerAnn) (want : Backend)
    (s : ScheduleAnn) (hs : ann.schedule = some s)
    (hx : ¬ann.httpsTrigger.isSome = ann.eventTrigger.isSome) :
    ∃ v, addResourcesToBackend p rt ann want = Except.ok v
      ∧ v.schedules = want.schedules ++ (effectiveRegions ann).map (mkSchedule p ann s)
      ∧ v.topics = want.topics ++ (effectiveRegions ann).map (mkTopic p ann)
      ∧ (∀ r, (mkSchedule p ann s r).id = scheduleIdForFunction ⟨ann.name, r, p⟩
          ∧ (mkTopic p ann r).id = scheduleIdForFunction ⟨ann.name, r, p⟩)
      ∧ (effectiveRegions ann ≠ [] →
          List.lookup "pubsub" v.requiredAPIs = some "pubsub.googleapis.com"
          ∧ List.lookup "scheduler" v.requiredAPIs = some "cloudscheduler.googleapis.com")
      ∧ v.cloudFunctions = want.cloudFunctions ++ (effectiveRegions ann).map (mkFunction p rt ann)
      ∧ (∀ r, List.lookup "deployment-scheduled" ((mkFunction p rt ann r).labels.getD [])
            = some "true"
          ∧ ∀ k, k ≠ "deployment-scheduled" →
              List.lookup k ((mkFunction p rt ann r).labels.getD [])
                = List.lookup k (ann.labels.getD []))
      ∧ (∀ et, ann.eventTrigger = some et → ann.httpsTrigger = none →
          ∀ r, (mkFunction p rt ann r).trigger = FunctionTrigger.event et.eventType
            ⟨et.resource ++ "/" ++ scheduleIdForFunction ⟨ann.name, r, p⟩⟩
            ann.failurePolicy.isSome)
      ∧ (∀ ht, ann.httpsTrigger = some ht → ∃ b, ∀ r,
          (mkFunction p rt ann r).trigger = FunctionTrigger.https b) := by
  refine ⟨applyRegions p rt ann (effectiveRegions ann) want,
    addGo_ok p rt ann hx (effectiveRegions ann) want,
    applyRegions_schedules p rt ann s hs _ want,
    applyRegions_topics p rt ann s hs _ want, ?_, ?_,
    applyRegions_cloudFunctions p rt ann _ want, ?_, ?_, ?_⟩
  · intro r
    exact ⟨rfl, rfl⟩
  · intro hne
    exact applyRegions_apis p rt ann s hs _ hne want
  · intro r
    constructor
    · rw [mkFunction_labels_sched p rt ann r s hs]
      simp only [Option.getD_some]
      exact lookup_recordSet_self _ _ _
    · intro k hk
      rw [mkFunction_labels_sched p rt ann r s hs]
      simp only [Option.getD_some]
      exact lookup_recordSet_other _ _ _ _ hk
  · intro et he hh r
    exact mkFunction_trigger_event_sched p rt ann r et s hh he hs
  · intro ht hh
    exact ⟨_, fun r => mkFunction_trigger_https p rt ann r ht hh⟩

/-- C3 witness: the concrete scheduled event annotation exercises the
schedule invariants. -/
theorem addResources_schedule_invariants_witness :
    (schedAnn.schedule = some ⟨"every 5 minutes", none, none⟩)
    ∧ (¬schedAnn.httpsTrigger.isSome = schedAnn.eventTrigger.isSome)
    ∧ ∃ v, addResourcesToBackend "p" "nodejs14" schedAnn backend0 = Except.ok v
      ∧ v.schedules = backend0.schedules ++ (effectiveRegions schedAnn).map
          (mkSchedule "p" schedAnn ⟨"every 5 minutes", none, none⟩)
      ∧ v.topics = backend0.topics ++ (effectiveRegions schedAnn).map (mkTopic "p" schedAnn)
      ∧ (∀ r, (mkSchedule "p" schedAnn ⟨"every 5 minutes", none, none⟩ r).id
            = scheduleIdForFunction ⟨schedAnn.name, r, "p"⟩
          ∧ (mkTopic "p" schedAnn r).id = scheduleIdForFunction ⟨schedAnn.name, r, "p"⟩)
      ∧ (effectiveRegions schedAnn ≠ [] →
          List.lookup "pubsub" v.requiredAPIs = some "pubsub.googleapis.com"
          ∧ List.lookup "scheduler" v.requiredAPIs = some "cloudscheduler.googleapis.com")
      ∧ v.cloudFunctions = backend0.cloudFunctions
          ++ (effectiveRegions schedAnn).map (mkFunction "p" "nodejs14" schedAnn)
      ∧ (∀ r, List.lookup "deployment-scheduled"
            ((mkFunction "p" "nodejs14" schedAnn r).labels.getD []) = some "true"
          ∧ ∀ k, k ≠ "deployment-scheduled" →
              List.lookup k ((mkFunction "p" "nodejs14" schedAnn r).labels.getD [])
                = List.lookup k (schedAnn.labels.getD []))
      ∧ (∀ et, schedAnn.eventTrigger = some et → schedAnn.httpsTrigger = none →
          ∀ r, (mkFunction "p" "nodejs14" schedAnn r).trigger = FunctionTrigger.event et.eventType
            ⟨et.resource ++ "/" ++ scheduleIdForFunction ⟨schedAnn.name, r, "p"⟩⟩
            schedAnn.failurePolicy.isSome)
      ∧ (∀ ht, schedAnn.httpsTrigger = some ht → ∃ b, ∀ r,
          (mkFunction "p" "nodejs14" schedAnn r).trigger = FunctionTrigger.https b) :=
  ⟨rfl, by decide,
    addResources_schedule_invariants "p" "nodejs14" schedAnn backend0
      ⟨"every 5 minutes", none, none⟩ rfl (by decide)⟩

/-! ## Lemmas about configToEnv -/

theorem configToEnvGo_ok (vk : String → Except EnvErr Unit) (pfx : String) :
    ∀ configs : List (String × String),
      (∀ kv ∈ configs, isOtherErr (convertKey vk kv.1 pfx) = false) →
      ∀ succ errs, configToEnvGo vk pfx configs succ errs
        = Except.ok ⟨succ ++ convSuccess vk pfx configs, errs ++ convErrors vk pfx configs⟩ := by
  intro configs
  induction configs with
  | nil => intro h succ errs; simp [configToEnvGo, convSuccess, convErrors]
  | cons kv rest ih =>
    intro h succ errs
    obtain ⟨k, v⟩ := kv
    have hhead := h (k, v) (List.mem_cons_self _ _)
    have htail : ∀ kv ∈ rest, isOtherErr (convertKey vk kv.1 pfx) = false :=
      fun kv hm => h kv (List.mem_cons_of_mem _ hm)
    cases hk : convertKey vk k pfx with
    | ok nk =>
      simp only [configToEnvGo, hk]
      rw [ih htail]
      simp [convSuccess, convErrors, List.filterMap_cons, hk]
    | error e =>
      cases e with
      | keyValidation key msg =>
        simp only [configToEnvGo, hk]
        rw [ih htail]
        simp [convSuccess, convErrors, List.filterMap_cons, hk]
      | other m =>
        rw [show ((k, v) : String × String).1 = k from rfl, hk] at hhead
        exact absurd hhead (by simp [isOtherErr])

theorem configToEnvGo_err (vk : String → Except EnvErr Unit) (pfx : String) :
    ∀ configs : List (String × String),
      (∃ kv ∈ configs, isOtherErr (convertKey vk kv.1 pfx) = true) →
      ∀ succ errs, ∃ e, configToEnvGo vk pfx configs succ errs = Except.error e := by
  intro configs
  induction configs with
  | nil =>
    rintro ⟨kv, hm, _⟩
    exact absurd hm (List.not_mem_nil kv)
  | cons kv rest ih =>
    rintro ⟨kv2, hm, hother⟩ succ errs
    obtain ⟨k, v⟩ := kv
    cases hk : convertKey vk k pfx with
    | ok nk =>
      have htl : kv2 ∈ rest := by
        rcases List.mem_cons.mp hm with he | ht
        · rw [he, show ((k, v) : String × String).1 = k from rfl, hk] at hother
          exact absurd hother (by simp [isOtherErr])
        · exact ht
      simp only [configToEnvGo, hk]
      exact ih ⟨kv2, htl, hother⟩ _ _
    | error e =>
      cases e with
      | keyValidation key msg =>
        have htl : kv2 ∈ rest := by
          rcases List.mem_cons.mp hm with he | ht
          · rw [he, show ((k, v) : String × String).1 = k from rfl, hk] at hother
            exact absurd hother (by simp [isOtherErr])
          · exact ht
        simp only [configToEnvGo, hk]
        exact ih ⟨kv2, htl, hother⟩ _ _
      | other m =>
        exact ⟨FatalErr.firebaseError "Unexpected error while converting config" (EnvErr.other m),
          by simp only [configToEnvGo, hk]⟩

/-! ## Claim theorems: convertKey and configToEnv -/

/-- C6: for every validator, key and prefix, convertKey returns the
transformed key (uppercased, dots and dashes to underscores) when it passes
validation; on a validation-kind failure it returns the prefixed transformed
key when that passes validation; and when the prefixed key also fails, the
failure propagates to the caller instead of being swallowed. -/
theorem convertKey_fallback (vk : String → Except EnvErr Unit) (configKey pfx : String) :
    (vk (envKeyTransform configKey) = Except.ok () →
      convertKey vk configKey pfx = Except.ok (envKeyTransform configKey))
    ∧ (∀ key msg, vk (envKeyTransform configKey) = Except.error (EnvErr.keyValidation key msg) →
        vk (pfx ++ envKeyTransform configKey) = Except.ok () →
        convertKey vk configKey pfx = Except.ok (pfx ++ envKeyTransform configKey))
    ∧ (∀ key msg e2, vk (envKeyTransform configKey) = Except.error (EnvErr.keyValidation key msg) →
        vk (pfx ++ envKeyTransform configKey) = Except.error e2 →
        convertKey vk configKey pfx = Except.error e2) := by
  refine ⟨?_, ?_, ?_⟩
  · intro h
    simp [convertKey, h]
  · intro key msg h1 h2
    simp [convertKey, h1, h2]
  · intro key msg e2 h1 h2
    simp [convertKey, h1, h2]

/-- C6 witness: a reserved key fails validation bare, succeeds with the
prefix, and convertKey returns the prefixed transformed key. -/
theorem convertKey_fallback_witness :
    (vkReserved (envKeyTransform "firebase.url")
      = Except.error (EnvErr.keyValidation "FIREBASE_URL" "Key cannot start with FIREBASE_"))
    ∧ (vkReserved ("CFG_" ++ envKeyTransform "firebase.url") = Except.ok ())
    ∧ convertKey vkReserved "firebase.url" "CFG_"
        = Except.ok ("CFG_" ++ envKeyTransform "firebase.url") :=
  ⟨by decide, by decide,
    (convertKey_fallback vkReserved "firebase.url" "CFG_").2.1 "FIREBASE_URL"
      "Key cannot start with FIREBASE_" (by decide) (by decide)⟩

/-- C4: when no leaf conversion raises a non-validation failure, configToEnv
returns normally with one success entry per converted leaf and one error
entry per validation-kind failure, the latter carrying the attempted
(possibly prefixed) key and that failure's message; when some leaf conversion
raises a non-validation failure, the whole call aborts with an error. -/
theorem configToEnv_error_collection (vk : String → Except EnvErr Unit)
    (configs : List (String × String)) (pfx : String) :
    ((∀ kv ∈ configs, isOtherErr (convertKey vk kv.1 pfx) = false) →
      configToEnv vk configs pfx
        = Except.ok ⟨convSuccess vk pfx configs, convErrors vk pfx configs⟩)
    ∧ ((∃ kv ∈ configs, isOtherErr (convertKey vk kv.1 pfx) = true) →
      ∃ e, configToEnv vk configs pfx = Except.error e) := by
  constructor
  · intro h
    have hmain := configToEnvGo_ok vk pfx configs h [] []
    simpa [configToEnv] using hmain
  · intro h
    have hmain := configToEnvGo_err vk pfx configs h [] []
    simpa [configToEnv] using hmain

/-- C4 witness: a mixed batch with one convertible leaf and one
validation-failing leaf is fully collected without aborting. -/
theorem configToEnv_error_collection_witness :
    (∀ kv ∈ ([("api.key", "k1"), ("firebase.url", "u")] : List (String × String)),
      isOtherErr (convertKey vkReserved kv.1 "") = false)
    ∧ configToEnv vkReserved [("api.key", "k1"), ("firebase.url", "u")] ""
        = Except.ok ⟨convSuccess vkReserved "" [("api.key", "k1"), ("firebase.url", "u")],
            convErrors vkReserved "" [("api.key", "k1"), ("firebase.url", "u")]⟩ :=
  ⟨by decide,
    (configToEnv_error_collection vkReserved [("api.key", "k1"), ("firebase.url", "u")] "").1
      (by decide)⟩

/-! ## Lemmas about the dotenv formatter -/

theorem replaceFirstChar_eq_spec (c : Char) (rep : List Char) :
    ∀ l : List Char, replaceFirstChar c rep l = replaceFirstSpec c rep l := by
  intro l
  induction l with
  | nil => simp [replaceFirstChar, replaceFirstSpec]
  | cons x xs ih =>
    by_cases hx : x = c
    · subst hx
      simp [replaceFirstChar, replaceFirstSpec, List.takeWhile_cons, List.dropWhile_cons]
    · have hcx : ¬c = x := fun h => hx h.symm
      have hxc : (x != c) = true := bne_iff_ne.mpr hx
      by_cases hm : c ∈ xs
      · simp [replaceFirstChar, replaceFirstSpec, hx, hcx, hxc, hm, List.takeWhile_cons,
          List.dropWhile_cons, ih]
      · simp [replaceFirstChar, replaceFirstSpec, hx, hcx, hxc, hm, ih]

theorem escapeQuotesList_eq_spec :
    ∀ l : List Char, escapeQuotesList l = escapeQuotesSpec l := by
  intro l
  induction l with
  | nil => simp [escapeQuotesList, escapeQuotesSpec]
  | cons x xs ih =>
    by_cases hq : x = squoteChar ∨ x = quoteChar
    · simp [escapeQuotesList, escapeQuotesSpec, hq] at ih ⊢
      simpa [escapeQuotesSpec] using ih
    · simp [escapeQuotesList, escapeQuotesSpec, hq] at ih ⊢
      simpa [escapeQuotesSpec] using ih

theorem escape_eq_escapeSpec : ∀ s : String, escape s = escapeSpec s := by
  intro s
  unfold escape escapeSpec escapeCtl
  rw [replaceFirstChar_eq_spec, replaceFirstChar_eq_spec, replaceFirstChar_eq_spec,
    replaceFirstChar_eq_spec, escapeQuotesList_eq_spec]

theorem foldl_max_general : ∀ (l : List Nat) (a : Nat), l.foldl Nat.max a = Nat.max a (maxNatList l) := by
  intro l
  induction l with
  | nil =>
    intro a
    simp only [List.foldl_nil, maxNatList]
    exact (Nat.max_eq_left (Nat.zero_le a)).symm
  | cons b bs ih =>
    intro a
    rw [List.foldl_cons, ih, maxNatList]
    exact max_assoc a b (maxNatList bs)

theorem foldl_max_eq (l : List Nat) : l.foldl Nat.max 0 = maxNatList l := by
  rw [foldl_max_general]
  exact Nat.max_eq_right (Nat.zero_le _)

theorem zipWith_map_left_eq {α β γ : Type} (g : α → β) (f : β → α → γ) :
    ∀ l : List α, List.zipWith f (l.map g) l = l.map (fun e => f (g e) e) := by
  intro l
  induction l with
  | nil => rfl
  | cons x xs ih => simp [ih]

/-! ## Claim theorem: toDotenvFormat -/

/-- C7: for every non-empty entry list, the formatter output matches the
spec-side description: one line per entry of the form KEY="escaped-value"
right-padded to the maximum rendered line length and followed by the
provenance comment, joined by newlines, where escaping replaces only the
first occurrence each of newline, carriage return, tab and vertical tab (in
that order) and then backslash-prefixes every quote character. -/
theorem toDotenvFormat_spec_eq :
    (∀ s, escape s = escapeSpec s)
    ∧ ∀ envs : List EnvMap, envs ≠ [] → toDotenvFormat envs = toDotenvFormatSpec envs := by
  constructor
  · exact escape_eq_escapeSpec
  · intro envs _
    have hrl : renderLine = renderLineSpec := by
      funext e
      unfold renderLine renderLineSpec
      rw [escape_eq_escapeSpec]
    simp only [toDotenvFormat, toDotenvFormatSpec, hrl, zipWith_map_left_eq, foldl_max_eq,
      List.map_map]
    rfl

/-- C7 witness: a concrete two-entry list formats identically under both
formulations. -/
theorem toDotenvFormat_spec_eq_witness :
    (([⟨"a.b", "A_B", "v1"⟩, ⟨"c", "C", "w"⟩] : List EnvMap) ≠ [])
    ∧ toDotenvFormat [⟨"a.b", "A_B", "v1"⟩, ⟨"c", "C", "w"⟩]
        = toDotenvFormatSpec [⟨"a.b", "A_B", "v1"⟩, ⟨"c", "C", "w"⟩] :=
  ⟨by decide, toDotenvFormat_spec_eq.2 _ (by decide)⟩
